import Mathlib

/-!
Verification development for the PickAParlay frontend (Next.js client).

The definitions below are a shallow embedding of the job-polling loops and
the client-side aggregation functions found in the repository:

* `frontend/app/prop-results/page.tsx` — `autoCheck` (results-check poller),
  `computeMarketStats`, `computePlayerStats`, the unmount cleanup effect;
* `frontend/app/history/page.tsx` — the second `autoCheck` instance;
* `frontend/app/ladder/page.tsx` — the ladder poll effect, the
  `singles`/`multis` partition and the `SlipCard` `cardKey`;
* `frontend/app/page.tsx` — `handleRefresh` and the refresh poll effect;
* `frontend/app/analytics/page.tsx` — the `pct` helper.

Timers are modelled with an explicit `timerActive` flag plus a fuel-indexed
tick loop; each tick's `await api.results.status()` is modelled by a stream
`src : Nat → Option RPhase` (`none` = the fetch rejected).  React state that
the loops write (`checkStatus`, `checking`) is carried in a record together
with instrumentation counters (number of fetches applied, number of times the
terminal-handling block ran, number of `load()` calls).
-/

namespace PickAParlay

/-- Phase of a results-check job, from `ResultsStatus.status` in
`frontend/lib/api.ts`: `"idle" | "running" | "done" | "error"`. -/
inductive RPhase
  | idle
  | running
  | done
  | error
deriving DecidableEq, Repr

/-- Graded outcome of one prop leg (`leg_result: "HIT" | "MISS" | null`). -/
inductive LegResult
  | HIT
  | MISS
deriving DecidableEq, Repr

/-- JavaScript `Math.round`: round half toward positive infinity. -/
def jsRound (q : ℚ) : ℤ := ⌊q + 1 / 2⌋

/-! ## Poll loop state (prop-results / history `autoCheck`) -/

/-- State of one `autoCheck` polling episode.  `checkStatus` and `checking`
are the page's React state; `timerActive` says the interval is currently
scheduled; `timerStarted` records that `setInterval` was ever called;
`fetches` counts successfully applied status fetches; `terminalCalls` counts
executions of the stop block (`clearInterval`; `setChecking(false)`; maybe
`load()`); `loads` counts `load()` calls. -/
structure PollSt where
  fetches : Nat
  checkStatus : Option RPhase
  timerActive : Bool
  timerStarted : Bool
  checking : Bool
  terminalCalls : Nat
  loads : Nat
deriving DecidableEq, Repr

/-- State at the top of `autoCheck`, after `setChecking(true)` and
`setCheckStatus(null)`. -/
def initPollSt : PollSt :=
  { fetches := 0, checkStatus := none, timerActive := false,
    timerStarted := false, checking := true, terminalCalls := 0, loads := 0 }

/-- Applying one successfully fetched status, as the tick body does:
`setCheckStatus(s); if (s.status !== "running") { clearInterval(...);
setChecking(false); if (s.status === "done") load(); }`. -/
def applyStatus (s : RPhase) (st : PollSt) : PollSt :=
  if s = RPhase.running then
    { st with fetches := st.fetches + 1, checkStatus := some s }
  else
    { st with
      fetches := st.fetches + 1
      checkStatus := some s
      timerActive := false
      checking := false
      terminalCalls := st.terminalCalls + 1
      loads := st.loads + (if s = RPhase.done then 1 else 0) }

/-- One poll tick given the fetch outcome.  A rejected fetch (`none`) is
swallowed by the tick's `catch { /* ignore poll errors */ }`: the state is
left untouched. -/
def tickStep (res : Option RPhase) (st : PollSt) : PollSt :=
  match res with
  | none => st
  | some s => applyStatus s st

/-- Fuel-indexed interval loop: while the timer is scheduled, run the tick
for fetch index `i`, then continue.  Once `clearInterval` has run
(`timerActive = false`) no further tick fires. -/
def tickLoop (src : Nat → Option RPhase) : Nat → PollSt → Nat → PollSt
  | _, st, 0 => st
  | i, st, fuel + 1 =>
    if st.timerActive then tickLoop src (i + 1) (tickStep (src i) st) fuel
    else st

/-- Interval of the results-check pollers (`setInterval(..., 2000)` in
`prop-results/page.tsx` and `history/page.tsx`). -/
def autoCheckIntervalMs : Nat := 2000

/-- Interval of the ladder poll effect (`setInterval(..., 2000)` in
`ladder/page.tsx`). -/
def ladderIntervalMs : Nat := 2000

/-- Interval of the refresh poll effect (`setInterval(..., 1500)` in
`app/page.tsx`). -/
def refreshIntervalMs : Nat := 1500

/-- The `autoCheck` flow of `prop-results/page.tsx` (the `history/page.tsx`
copy is identical in structure): trigger `api.results.check`; on trigger
failure the `catch` block only does `setChecking(false)`.  On success, fetch
status once and apply it; if it is `running`, start the interval and poll;
an initial-fetch rejection is also caught by the same `catch`. -/
def autoCheck (triggerOk : Bool) (src : Nat → Option RPhase) (fuel : Nat) :
    PollSt :=
  if triggerOk then
    match src 0 with
    | none => { initPollSt with checking := false }
    | some s =>
      if s = RPhase.running then
        tickLoop src 1
          { applyStatus s initPollSt with timerActive := true, timerStarted := true }
          fuel
      else applyStatus s initPollSt
  else { initPollSt with checking := false }

/-! ## Cancellation (unmount cleanup) -/

/-- The unmount cleanup effect: `if (checkPollRef.current)
clearInterval(checkPollRef.current)`.  It only stops the timer. -/
def cleanup (st : PollSt) : PollSt := { st with timerActive := false }

/-- Whether a new interval tick can fire in state `st`. -/
def timerFires (st : PollSt) : Bool := st.timerActive

/-- Continuation of a poll tick after `await api.results.status()` resolves.
The first argument records whether `clearInterval` ran while the fetch was in
flight; the code consults no such flag, so the received status is applied
unconditionally (same body as `applyStatus`). -/
def tickAfterFetch (_cancelledInFlight : Bool) (s : RPhase) (st : PollSt) :
    PollSt :=
  applyStatus s st

/-! ## Refresh trigger flow (`app/page.tsx`) -/

/-- Outcome of one `handleRefresh` attempt together with the poll effect
keyed on `refreshing`. -/
structure RefreshFlow where
  refreshing : Bool
  pollingStarted : Bool
  errorSurfaced : Bool
  statusFetched : Bool
deriving DecidableEq, Repr

/-- `handleRefresh`: `setRefreshing(true); setError(null); await
api.refresh(); setRefreshStatus(await api.refreshStatus());`.  The
`[refreshing, fetchData]` effect schedules its interval as soon as the
re-render for `refreshing = true` flushes, i.e. while the trigger call is
still in flight; there is no `try`/`catch`, so a rejected trigger leaves
`refreshing` true, the interval scheduled, and `error` untouched. -/
def handleRefresh (triggerOk : Bool) : RefreshFlow :=
  { refreshing := true
    pollingStarted := true
    errorSurfaced := false
    statusFetched := triggerOk }

/-- Stop condition of the results-check poll tick:
`if (s.status !== "running") { clearInterval(...); ... }`. -/
def resultsPollStops (s : RPhase) : Bool := decide (s ≠ RPhase.running)

/-! ## Association-list helpers (JS object accumulator) -/

/-- Lookup in the plain-object accumulator (`acc[key]`). -/
def findEntry {β : Type} (k : String) : List (String × β) → Option β
  | [] => none
  | e :: rest => if e.1 = k then some e.2 else findEntry k rest

/-- In-place mutation of the entry at `k` (`acc[key].field++` etc.). -/
def updateEntry {β : Type} (k : String) (f : β → β) :
    List (String × β) → List (String × β)
  | [] => []
  | e :: rest =>
    if e.1 = k then (e.1, f e.2) :: rest else e :: updateEntry k f rest

/-! ## Prop-result rows and the player rollup (`computePlayerStats`) -/

/-- The fields of a `PropResult` row that the summary computations read. -/
structure PropResultRow where
  player_name : String
  market_label : String
  value_score : Option ℚ
  leg_result : Option LegResult
deriving DecidableEq, Repr

/-- Grouping key of `computePlayerStats`:
`` `${r.player_name}||${r.market_label}` ``. -/
def rowKey (r : PropResultRow) : String :=
  r.player_name ++ "||" ++ r.market_label

/-- Accumulator entry of `computePlayerStats`. -/
structure PGroup where
  player : String
  market : String
  graded : Nat
  hits : Nat
  scores : List ℚ
  pending : Nat
deriving DecidableEq, Repr

/-- Fresh accumulator entry: `{ player, market, graded: 0, hits: 0,
scores: [], pending: 0 }`. -/
def emptyGroup (r : PropResultRow) : PGroup :=
  { player := r.player_name, market := r.market_label,
    graded := 0, hits := 0, scores := [], pending := 0 }

/-- Body of the `computePlayerStats` loop for one row:
`acc[key].scores.push(r.value_score ?? 0); if (r.leg_result == null)
{ acc[key].pending++; continue; } acc[key].graded++; if (r.leg_result ===
"HIT") acc[key].hits++;`. -/
def updateGroup (r : PropResultRow) (g : PGroup) : PGroup :=
  match r.leg_result with
  | none =>
    { g with
      scores := g.scores ++ [r.value_score.getD 0]
      pending := g.pending + 1 }
  | some res =>
    { g with
      scores := g.scores ++ [r.value_score.getD 0]
      graded := g.graded + 1
      hits := g.hits + (if res = LegResult.HIT then 1 else 0) }

/-- One iteration of the `computePlayerStats` loop: create the entry on
first sight of a key (insertion order preserved, as for JS object keys),
then mutate it. -/
def insertRow (acc : List (String × PGroup)) (r : PropResultRow) :
    List (String × PGroup) :=
  match findEntry (rowKey r) acc with
  | some _ => updateEntry (rowKey r) (updateGroup r) acc
  | none => acc ++ [(rowKey r, updateGroup r (emptyGroup r))]

/-- The full accumulation pass of `computePlayerStats`. -/
def buildGroups (rows : List PropResultRow) : List (String × PGroup) :=
  rows.foldl insertRow []

/-- Folding the rows of a single key into an optional group; used only to
state what `buildGroups` computes per key. -/
def foldGroupOpt (og : Option PGroup) (rs : List PropResultRow) :
    Option PGroup :=
  rs.foldl (fun o r => some (updateGroup r (o.getD (emptyGroup r)))) og

/-- Output row of `computePlayerStats`. -/
structure PlayerStat where
  player : String
  market : String
  total : Nat
  hits : Nat
  hit_pct : ℤ
  avg_score : ℤ
  pending : Nat
deriving DecidableEq, Repr

/-- The `.map` step of `computePlayerStats`: `total` is the graded count,
`hit_pct` divides by the graded count (0 when nothing is graded), and
`avg_score` averages over every pushed score. -/
def statOfGroup (g : PGroup) : PlayerStat :=
  { player := g.player, market := g.market,
    total := g.graded, hits := g.hits,
    hit_pct :=
      if g.graded ≠ 0 then jsRound ((g.hits : ℚ) / (g.graded : ℚ) * 100)
      else 0,
    avg_score := jsRound (g.scores.sum / (g.scores.length : ℚ)),
    pending := g.pending }

/-- The sort comparator `(a, b) => b.total - a.total || b.hit_pct -
a.hit_pct` of `computePlayerStats`. -/
def playerCmp (a b : PlayerStat) : ℤ :=
  if (b.total : ℤ) - (a.total : ℤ) ≠ 0 then (b.total : ℤ) - (a.total : ℤ)
  else b.hit_pct - a.hit_pct

/-- Stable-sort order induced by `playerCmp` (a stays before b when the
comparator is non-positive). -/
def playerLE (a b : PlayerStat) : Bool := decide (playerCmp a b ≤ 0)

/-- `computePlayerStats` from `prop-results/page.tsx`. -/
def computePlayerStats (rows : List PropResultRow) : List PlayerStat :=
  ((buildGroups rows).map (fun e => statOfGroup e.2)).mergeSort playerLE

/-! ## Market rollup (`computeMarketStats`) and the `pct` helper -/

/-- Accumulator entry of `computeMarketStats`. -/
structure MGroup where
  total : Nat
  hits : Nat
deriving DecidableEq, Repr

/-- Body of the `computeMarketStats` loop for one graded row:
`acc[m].total++; if (r.leg_result === "HIT") acc[m].hits++;`. -/
def updateM (res : LegResult) (g : MGroup) : MGroup :=
  { total := g.total + 1,
    hits := g.hits + (if res = LegResult.HIT then 1 else 0) }

/-- One iteration of the `computeMarketStats` loop; ungraded rows are
skipped (`if (r.leg_result == null) continue`). -/
def insertMRow (acc : List (String × MGroup)) (r : PropResultRow) :
    List (String × MGroup) :=
  match r.leg_result with
  | none => acc
  | some res =>
    match findEntry r.market_label acc with
    | some _ => updateEntry r.market_label (updateM res) acc
    | none =>
      acc ++ [(r.market_label, updateM res { total := 0, hits := 0 })]

/-- The accumulation pass of `computeMarketStats`. -/
def buildMarketGroups (rows : List PropResultRow) :
    List (String × MGroup) :=
  rows.foldl insertMRow []

/-- Output row of `computeMarketStats`. -/
structure MarketStat where
  label : String
  total : Nat
  hits : Nat
  pct : ℤ
deriving DecidableEq, Repr

/-- The `.map` step of `computeMarketStats`:
`pct: s.total ? Math.round(s.hits / s.total * 100) : 0`. -/
def marketStatOf (l : String) (g : MGroup) : MarketStat :=
  { label := l, total := g.total, hits := g.hits,
    pct :=
      if g.total ≠ 0 then jsRound ((g.hits : ℚ) / (g.total : ℚ) * 100)
      else 0 }

/-- The sort comparator `(a, b) => b.pct - a.pct` of `computeMarketStats`. -/
def marketLE (a b : MarketStat) : Bool := decide (b.pct ≤ a.pct)

/-- `computeMarketStats` from `prop-results/page.tsx`. -/
def computeMarketStats (rows : List PropResultRow) : List MarketStat :=
  ((buildMarketGroups rows).map (fun e => marketStatOf e.1 e.2)).mergeSort
    marketLE

/-- The `pct` helper of `analytics/page.tsx`:
`total ? Math.round((hits / total) * 100) : 0`. -/
def pct (hits total : Nat) : ℤ :=
  if total ≠ 0 then jsRound ((hits : ℚ) / (total : ℚ) * 100) else 0

/-! ## Slip classifier (`ladder/page.tsx`) -/

/-- The optional `type` tag set by the ladder endpoint on each slip. -/
inductive SlipKind
  | single
  | multi
deriving DecidableEq, Repr

/-- The fields of a ladder `Slip` that the classifier reads. -/
structure LadderSlip where
  ty : Option SlipKind
  legCount : Nat
deriving DecidableEq, Repr

/-- `const singles = slips.filter(s => s.type === "single")`. -/
def singles (slips : List LadderSlip) : List LadderSlip :=
  slips.filter (fun s => decide (s.ty = some SlipKind.single))

/-- `const multis = slips.filter(s => s.type !== "single")`. -/
def multis (slips : List LadderSlip) : List LadderSlip :=
  slips.filter (fun s => ! decide (s.ty = some SlipKind.single))

/-- `SlipCard`: `const cardKey = prefix === "s" ? -(idx + 1) : idx`. -/
def cardKey (pre : String) (idx : Nat) : ℤ :=
  if pre = "s" then -((idx : ℤ) + 1) else (idx : ℤ)

/-! ## Concrete inputs used by the witness theorems -/

/-- Status stream: running once, then done. -/
def c1srcW : Nat → Option RPhase :=
  fun i => if i = 0 then some RPhase.running else some RPhase.done

/-- Status stream that is immediately done. -/
def srcDoneW : Nat → Option RPhase := fun _ => some RPhase.done

/-- Status stream whose fetches always fail. -/
def srcNoneW : Nat → Option RPhase := fun _ => none

/-- A state with the interval scheduled. -/
def stW : PollSt := { initPollSt with timerActive := true }

/-- Two rows of one (player, market) group: a graded hit, then a pending
row without a value score. -/
def rowsW : List PropResultRow :=
  [ { player_name := "A", market_label := "P", value_score := some 80,
      leg_result := some LegResult.HIT },
    { player_name := "A", market_label := "P", value_score := none,
      leg_result := none } ]

/-- The group that `buildGroups rowsW` accumulates under key `A||P`. -/
def gW : PGroup :=
  { player := "A", market := "P", graded := 1, hits := 1,
    scores := [80, 0], pending := 1 }

/-- A single graded row for the market rollup witness. -/
def rowsW8 : List PropResultRow :=
  [ { player_name := "B", market_label := "Points", value_score := some 70,
      leg_result := some LegResult.HIT } ]

/-- The market stat produced for `rowsW8`. -/
def sW : MarketStat := marketStatOf "Points" { total := 1, hits := 1 }

/-- Slips for the classifier witness: a tagged single, a tagged multi, and
an untagged three-leg slip. -/
def slipsW : List LadderSlip :=
  [ { ty := some SlipKind.single, legCount := 1 },
    { ty := some SlipKind.multi, legCount := 2 },
    { ty := none, legCount := 3 } ]

/-! ## Basic lemmas about the tick loop -/

theorem tickLoop_zero (src : Nat → Option RPhase) (i : Nat) (st : PollSt) :
    tickLoop src i st 0 = st := rfl

theorem tickLoop_succ (src : Nat → Option RPhase) (i : Nat) (st : PollSt)
    (fuel : Nat) :
    tickLoop src i st (fuel + 1) =
      if st.timerActive then tickLoop src (i + 1) (tickStep (src i) st) fuel
      else st := rfl

theorem tickLoop_inactive (src : Nat → Option RPhase) (i : Nat) (st : PollSt)
    (fuel : Nat) (h : st.timerActive = false) : tickLoop src i st fuel = st := by
  cases fuel with
  | zero => rfl
  | succ n => rw [tickLoop_succ, h]; simp

theorem applyStatus_timerStarted (s : RPhase) (st : PollSt) :
    (applyStatus s st).timerStarted = st.timerStarted := by
  unfold applyStatus; split <;> rfl

theorem applyStatus_fetches (s : RPhase) (st : PollSt) :
    (applyStatus s st).fetches = st.fetches + 1 := by
  unfold applyStatus; split <;> rfl

theorem tickStep_timerStarted (res : Option RPhase) (st : PollSt) :
    (tickStep res st).timerStarted = st.timerStarted := by
  cases res with
  | none => rfl
  | some s => exact applyStatus_timerStarted s st

theorem tickStep_fetches_ge (res : Option RPhase) (st : PollSt) :
    st.fetches ≤ (tickStep res st).fetches := by
  cases res with
  | none => exact Nat.le_refl _
  | some s => rw [show (tickStep (some s) st) = applyStatus s st from rfl,
      applyStatus_fetches]; omega

theorem tickLoop_timerStarted (src : Nat → Option RPhase) (fuel : Nat) :
    ∀ (i : Nat) (st : PollSt),
      (tickLoop src i st fuel).timerStarted = st.timerStarted := by
  induction fuel with
  | zero => intro i st; rfl
  | succ n ih =>
    intro i st
    rw [tickLoop_succ]
    by_cases h : st.timerActive
    · rw [if_pos h, ih, tickStep_timerStarted]
    · rw [if_neg h]

theorem tickLoop_fetches_ge (src : Nat → Option RPhase) (fuel : Nat) :
    ∀ (i : Nat) (st : PollSt),
      st.fetches ≤ (tickLoop src i st fuel).fetches := by
  induction fuel with
  | zero => intro i st; exact Nat.le_refl _
  | succ n ih =>
    intro i st
    rw [tickLoop_succ]
    by_cases h : st.timerActive
    · rw [if_pos h]
      exact Nat.le_trans (tickStep_fetches_ge (src i) st) (ih _ _)
    · rw [if_neg h]

/-- Core run lemma: starting from an armed state, `k` running fetches
followed by one terminal fetch execute exactly `k + 1` ticks, run the stop
block once, clear the timer, and leave the final status applied; any
remaining fuel is never used. -/
theorem tickLoop_terminal (src : Nat → Option RPhase) (t : RPhase)
    (htr : t ≠ RPhase.running) (k : Nat) :
    ∀ (i : Nat) (st : PollSt) (fuel : Nat),
      st.timerActive = true →
      (∀ j, j < k → src (i + j) = some RPhase.running) →
      src (i + k) = some t →
      k < fuel →
      tickLoop src i st fuel =
        { st with
          fetches := st.fetches + k + 1
          checkStatus := some t
          timerActive := false
          checking := false
          terminalCalls := st.terminalCalls + 1
          loads := st.loads + (if t = RPhase.done then 1 else 0) } := by
  induction k with
  | zero =>
    intro i st fuel hact hrun hterm hfuel
    obtain ⟨f, rfl⟩ : ∃ f, fuel = f + 1 := ⟨fuel - 1, by omega⟩
    have hsrc : src i = some t := by simpa using hterm
    rw [tickLoop_succ, if_pos hact, hsrc]
    show tickLoop src (i + 1) (applyStatus t st) f = _
    unfold applyStatus
    rw [if_neg htr, tickLoop_inactive _ _ _ _ rfl]
  | succ k ih =>
    intro i st fuel hact hrun hterm hfuel
    obtain ⟨f, rfl⟩ : ∃ f, fuel = f + 1 := ⟨fuel - 1, by omega⟩
    have h0 : src i = some RPhase.running := by
      have h1 := hrun 0 (Nat.succ_pos k)
      simpa using h1
    rw [tickLoop_succ, if_pos hact, h0]
    show tickLoop src (i + 1) (applyStatus RPhase.running st) f = _
    unfold applyStatus
    rw [if_pos rfl]
    rw [ih (i + 1)
      { st with fetches := st.fetches + 1, checkStatus := some RPhase.running }
      f hact
      (fun j hj => by
        have h2 : i + 1 + j = i + (j + 1) := by omega
        rw [h2]; exact hrun (j + 1) (by omega))
      (by
        have h3 : i + 1 + k = i + (k + 1) := by omega
        rw [h3]; exact hterm)
      (by omega)]
    dsimp only
    rw [show st.fetches + 1 + k + 1 = st.fetches + (k + 1) + 1 by omega]

/-! ## C1 — poller termination -/

/-- C1: for the results-check poll loop, if the status source yields
`running` for the first `N` fetches and a terminal phase on fetch `N + 1`,
then (for any fuel of at least `N` further ticks — in particular arbitrarily
more) the loop performs exactly `N + 1` fetches, runs its terminal handling
exactly once, cancels its own timer, applies the terminal status, and
schedules no further ticks (the result is independent of any extra fuel). -/
theorem c1_poller_termination (src : Nat → Option RPhase) (N : Nat)
    (t : RPhase)
    (hrun : ∀ i, i < N → src i = some RPhase.running)
    (hterm : src N = some t)
    (ht : t = RPhase.done ∨ t = RPhase.error)
    (fuel : Nat) (hfuel : N ≤ fuel) :
    (autoCheck true src fuel).fetches = N + 1 ∧
    (autoCheck true src fuel).terminalCalls = 1 ∧
    (autoCheck true src fuel).timerActive = false ∧
    (autoCheck true src fuel).checkStatus = some t ∧
    (autoCheck true src fuel).checking = false := by
  have htr : t ≠ RPhase.running := by
    rcases ht with h | h <;> subst h <;> decide
  cases N with
  | zero =>
    simp only [autoCheck, hterm, if_pos rfl, if_neg htr]
    refine ⟨?_, ?_, ?_, ?_, ?_⟩ <;> simp [applyStatus, htr, initPollSt]
  | succ n =>
    have h0 : src 0 = some RPhase.running := hrun 0 (Nat.succ_pos n)
    simp only [autoCheck, h0, if_pos rfl]
    rw [tickLoop_terminal src t htr n 1 _ fuel rfl
      (fun j hj => by
        have h2 : 1 + j = j + 1 := by omega
        rw [h2]; exact hrun (j + 1) (by omega))
      (by
        have h3 : 1 + n = n + 1 := by omega
        rw [h3]; exact hterm)
      (by omega)]
    refine ⟨?_, ?_, ?_, ?_, ?_⟩ <;>
      simp [applyStatus, initPollSt] <;> omega

/-- Witness for C1 at the stream `running, done, done, …` with `N = 1`. -/
theorem c1_poller_termination_witness :
    (autoCheck true c1srcW 1).fetches = 1 + 1 ∧
    (autoCheck true c1srcW 1).terminalCalls = 1 ∧
    (autoCheck true c1srcW 1).timerActive = false ∧
    (autoCheck true c1srcW 1).checkStatus = some RPhase.done ∧
    (autoCheck true c1srcW 1).checking = false :=
  c1_poller_termination c1srcW 1 RPhase.done (by decide) (by decide)
    (Or.inl rfl) 1 (by decide)

/-! ## C2 — cancellation safety -/

/-- C2 counterexample: after the cleanup (cancellation) ran, a status fetch
that was already in flight still applies its received status when it
resolves — the continuation sets `checkStatus` and even performs the
post-completion `load()`, because no cancellation flag is consulted.  This
refutes the claim that no callback fires and no received status is applied
after cancellation. -/
theorem c2_cancellation_counterexample :
    timerFires (cleanup stW) = false ∧
    (tickAfterFetch true RPhase.done (cleanup stW)).checkStatus =
      some RPhase.done ∧
    (tickAfterFetch true RPhase.done (cleanup stW)).loads = 1 ∧
    tickAfterFetch true RPhase.done (cleanup stW) ≠ cleanup stW := by
  decide

/-- C2 (amended): cancellation stops the timer immediately, so no new tick
ever starts afterwards; but a status fetch already in flight at cancellation
time still applies its received status when it resolves — the tick
continuation consults no cancellation flag. -/
theorem c2_cancellation_amended :
    (∀ st : PollSt, timerFires (cleanup st) = false) ∧
    (∀ (src : Nat → Option RPhase) (i : Nat) (st : PollSt) (fuel : Nat),
      st.timerActive = false → tickLoop src i st fuel = st) ∧
    (∀ (s : RPhase) (st : PollSt),
      (tickAfterFetch true s st).checkStatus = some s) := by
  refine ⟨fun st => rfl,
    fun src i st fuel h => tickLoop_inactive src i st fuel h,
    fun s st => ?_⟩
  unfold tickAfterFetch applyStatus
  split <;> rfl

/-- Witness for the amended C2 at a cancelled state. -/
theorem c2_cancellation_amended_witness :
    tickLoop srcNoneW 0 (cleanup stW) 3 = cleanup stW ∧
    timerFires (cleanup stW) = false :=
  ⟨c2_cancellation_amended.2.1 srcNoneW 0 (cleanup stW) 3 rfl,
   c2_cancellation_amended.1 (cleanup stW)⟩

/-! ## C3 — trigger failure -/

/-- C3 counterexample: in the refresh flow (`app/page.tsx`), a failed
trigger call still leaves the poll interval scheduled (the effect keyed on
`refreshing` started it before the trigger settled, and no `catch` resets
`refreshing`), and the failure is not surfaced to the page error state. -/
theorem c3_trigger_failure_counterexample :
    (handleRefresh false).pollingStarted = true ∧
    (handleRefresh false).errorSurfaced = false := by
  decide

/-- C3 (amended): in the results-check start path a failed trigger is
caught — no status fetch happens, no timer is ever started, and `checking`
is reset; in the refresh start path the poll interval is already scheduled
when the trigger fails and the failure is not surfaced to the page error
state. -/
theorem c3_trigger_failure_amended :
    (∀ (src : Nat → Option RPhase) (fuel : Nat),
      autoCheck false src fuel = { initPollSt with checking := false }) ∧
    (∀ (src : Nat → Option RPhase) (fuel : Nat),
      (autoCheck false src fuel).fetches = 0 ∧
      (autoCheck false src fuel).timerStarted = false) ∧
    (handleRefresh false).pollingStarted = true ∧
    (handleRefresh false).errorSurfaced = false :=
  ⟨fun _ _ => rfl, fun _ _ => ⟨rfl, rfl⟩, rfl, rfl⟩

/-! ## C4 — the stop set of the results-check loop -/

/-- C4 counterexample: the loop's stop test is `status !== "running"`, so it
also stops on `idle`, which is outside the claimed terminal set
`{done, error}`. -/
theorem c4_terminal_set_counterexample :
    resultsPollStops RPhase.idle = true ∧
    RPhase.idle ≠ RPhase.done ∧ RPhase.idle ≠ RPhase.error ∧
    (applyStatus RPhase.idle stW).timerActive = false ∧
    (applyStatus RPhase.idle stW).terminalCalls = stW.terminalCalls + 1 := by
  decide

/-- C4 (amended): the results-check loop stops exactly when the fetched
status is not `running` — that is, on `done`, `error`, or `idle` — and
continues only on `running`. -/
theorem c4_terminal_set_amended (s : RPhase) :
    (resultsPollStops s = true ↔
      (s = RPhase.idle ∨ s = RPhase.done ∨ s = RPhase.error)) ∧
    (resultsPollStops s = false ↔ s = RPhase.running) ∧
    (∀ st : PollSt,
      (applyStatus s st).timerActive =
        if s = RPhase.running then st.timerActive else false) := by
  refine ⟨?_, ?_, fun st => ?_⟩ <;>
    cases s <;> simp [resultsPollStops, applyStatus]

/-- Witness for the amended C4 at the `idle` phase. -/
theorem c4_terminal_set_amended_witness :
    (resultsPollStops RPhase.idle = true ↔
      (RPhase.idle = RPhase.idle ∨ RPhase.idle = RPhase.done ∨
        RPhase.idle = RPhase.error)) ∧
    (resultsPollStops RPhase.idle = false ↔ RPhase.idle = RPhase.running) ∧
    (∀ st : PollSt,
      (applyStatus RPhase.idle st).timerActive =
        if RPhase.idle = RPhase.running then st.timerActive else false) :=
  c4_terminal_set_amended RPhase.idle

/-! ## C5 — initial fetch and interval length -/

/-- C5 counterexample: the refresh poll effect schedules its interval at
1500 ms, not at the claimed fixed 2000 ms. -/
theorem c5_interval_counterexample :
    refreshIntervalMs = 1500 ∧ refreshIntervalMs ≠ 2000 := by
  decide

/-- C5 (amended): after a successful trigger the client immediately fetches
status once and applies it; when that status is not terminal it schedules
repeated status fetches at a fixed interval — 2000 ms for the ladder and
results-check loops, 1500 ms for the refresh loop. -/
theorem c5_interval_amended :
    autoCheckIntervalMs = 2000 ∧ ladderIntervalMs = 2000 ∧
    refreshIntervalMs = 1500 ∧
    (∀ (src : Nat → Option RPhase) (fuel : Nat) (s : RPhase),
      src 0 = some s →
        1 ≤ (autoCheck true src fuel).fetches ∧
        ((autoCheck true src fuel).timerStarted = true ↔
          s = RPhase.running)) ∧
    (∀ (src : Nat → Option RPhase) (fuel : Nat) (s : RPhase),
      src 0 = some s → s ≠ RPhase.running →
        autoCheck true src fuel = applyStatus s initPollSt) := by
  refine ⟨rfl, rfl, rfl, fun src fuel s h0 => ?_, fun src fuel s h0 hne => ?_⟩
  · by_cases hs : s = RPhase.running
    · subst hs
      have hauto : autoCheck true src fuel =
          tickLoop src 1
            { applyStatus RPhase.running initPollSt with
              timerActive := true
              timerStarted := true } fuel := by
        simp [autoCheck, h0]
      rw [hauto]
      constructor
      · refine Nat.le_trans ?_ (tickLoop_fetches_ge src fuel 1 _)
        simp [applyStatus, initPollSt]
      · rw [tickLoop_timerStarted]
        simp
    · have hauto : autoCheck true src fuel = applyStatus s initPollSt := by
        simp [autoCheck, h0, hs]
      rw [hauto]
      constructor
      · simp [applyStatus_fetches]
      · rw [applyStatus_timerStarted]
        simp [initPollSt, hs]
  · simp [autoCheck, h0, hne]

/-- Witness for the amended C5 at an immediately terminal stream. -/
theorem c5_interval_amended_witness :
    autoCheck true srcDoneW 0 = applyStatus RPhase.done initPollSt :=
  c5_interval_amended.2.2.2.2 srcDoneW 0 RPhase.done rfl (by decide)

/-! ## C6 — fetch failures are skipped -/

/-- C6: a poll tick whose status fetch fails is silently skipped — the state
(stored status, checking flag, counters, timer) is completely unchanged, the
loop does not terminate, and the next tick still runs on schedule (the loop
continues exactly as if the failed tick had not existed, consuming only that
tick's slot). -/
theorem c6_fetch_failure_skipped :
    (∀ st : PollSt, tickStep none st = st) ∧
    (∀ (src : Nat → Option RPhase) (i : Nat) (st : PollSt) (fuel : Nat),
      st.timerActive = true → src i = none →
        tickLoop src i st (fuel + 1) = tickLoop src (i + 1) st fuel) := by
  refine ⟨fun st => rfl, fun src i st fuel hact hsrc => ?_⟩
  rw [tickLoop_succ, if_pos hact, hsrc]
  rfl

/-- Witness for C6 with an always-failing status source. -/
theorem c6_fetch_failure_skipped_witness :
    tickStep none initPollSt = initPollSt ∧
    tickLoop srcNoneW 0 stW (0 + 1) = tickLoop srcNoneW 1 stW 0 :=
  ⟨c6_fetch_failure_skipped.1 initPollSt,
   c6_fetch_failure_skipped.2 srcNoneW 0 stW 0 rfl rfl⟩

/-! ## C9 — slip classifier -/

theorem filter_not_length {α : Type} (p : α → Bool) (l : List α) :
    (l.filter p).length + (l.filter (fun a => ! p a)).length = l.length := by
  induction l with
  | nil => rfl
  | cons a l ih =>
    cases hpa : p a <;> simp [List.filter_cons, hpa] <;> omega

/-- C9: the classifier partitions the slips into singles and multis,
preserving input order within each group (each group is a sublist of the
input and the two groups exhaust it), and the expansion keys of the two
groups never collide: singles at index `i` get key `-(i + 1)` while multis
at index `j` get key `j`. -/
theorem c9_classifier_partition (slips : List LadderSlip)
    (hleg : ∀ s ∈ slips,
      (s.ty = some SlipKind.single → s.legCount = 1) ∧
      (s.ty ≠ some SlipKind.single → 2 ≤ s.legCount)) :
    (∀ s ∈ singles slips, s.legCount = 1) ∧
    (∀ s ∈ multis slips, 2 ≤ s.legCount) ∧
    List.Sublist (singles slips) slips ∧
    List.Sublist (multis slips) slips ∧
    (singles slips).length + (multis slips).length = slips.length ∧
    (∀ i j : Nat, cardKey "s" i ≠ cardKey "m" j) := by
  refine ⟨?_, ?_, List.filter_sublist slips, List.filter_sublist slips,
    filter_not_length _ slips, ?_⟩
  · intro s hs
    have hmem := List.mem_filter.mp hs
    exact (hleg s hmem.1).1 (by simpa using hmem.2)
  · intro s hs
    have hmem := List.mem_filter.mp hs
    exact (hleg s hmem.1).2 (by simpa using hmem.2)
  · intro i j
    unfold cardKey
    rw [if_pos rfl, if_neg (by decide : ¬ ("m" = "s"))]
    intro hEq
    have h2 : -((i : ℤ) + 1) = (j : ℤ) := hEq
    omega

/-- Witness for C9 at a three-slip input. -/
theorem c9_classifier_partition_witness :
    (∀ s ∈ singles slipsW, s.legCount = 1) ∧
    (∀ s ∈ multis slipsW, 2 ≤ s.legCount) ∧
    List.Sublist (singles slipsW) slipsW ∧
    List.Sublist (multis slipsW) slipsW ∧
    (singles slipsW).length + (multis slipsW).length = slipsW.length ∧
    (∀ i j : Nat, cardKey "s" i ≠ cardKey "m" j) :=
  c9_classifier_partition slipsW (by decide)

/-! ## Association-list lemmas -/

theorem findEntry_append_of_some {β : Type} (k : String) (v : β)
    (l2 : List (String × β)) :
    ∀ l1 : List (String × β), findEntry k l1 = some v →
      findEntry k (l1 ++ l2) = some v
  | [], h => by simp [findEntry] at h
  | e :: rest, h => by
    rw [List.cons_append]
    unfold findEntry at h ⊢
    by_cases he : e.1 = k
    · rwa [if_pos he] at h ⊢
    · rw [if_neg he] at h ⊢
      exact findEntry_append_of_some k v l2 rest h

theorem findEntry_append_of_none {β : Type} (k : String)
    (l2 : List (String × β)) :
    ∀ l1 : List (String × β), findEntry k l1 = none →
      findEntry k (l1 ++ l2) = findEntry k l2
  | [], _ => rfl
  | e :: rest, h => by
    have hcons : findEntry k ((e :: rest) ++ l2) =
        if e.1 = k then some e.2 else findEntry k (rest ++ l2) := rfl
    have hcons2 : findEntry k (e :: rest) =
        if e.1 = k then some e.2 else findEntry k rest := rfl
    rw [hcons2] at h
    rw [hcons]
    by_cases he : e.1 = k
    · rw [if_pos he] at h
      exact absurd h (by simp)
    · rw [if_neg he] at h
      rw [if_neg he]
      exact findEntry_append_of_none k l2 rest h

theorem findEntry_updateEntry_self {β : Type} (k : String) (f : β → β) :
    ∀ l : List (String × β),
      findEntry k (updateEntry k f l) = (findEntry k l).map f
  | [] => rfl
  | e :: rest => by
    by_cases he : e.1 = k
    · simp [updateEntry, findEntry, he]
    · simp [updateEntry, findEntry, he,
        findEntry_updateEntry_self k f rest]

theorem findEntry_updateEntry_ne {β : Type} (k k2 : String) (f : β → β)
    (hne : k2 ≠ k) :
    ∀ l : List (String × β),
      findEntry k (updateEntry k2 f l) = findEntry k l
  | [] => rfl
  | e :: rest => by
    by_cases he : e.1 = k2
    · have hek : ¬ e.1 = k := by rw [he]; exact hne
      simp [updateEntry, findEntry, he, hek, hne]
    · by_cases hek : e.1 = k
      · simp [updateEntry, findEntry, he, hek, Ne.symm hne]
      · simp [updateEntry, findEntry, he, hek,
          findEntry_updateEntry_ne k k2 f hne rest]

theorem updateEntry_pred {β : Type} (P : β → Prop) (k : String) (f : β → β)
    (hf : ∀ b, P b → P (f b)) :
    ∀ l : List (String × β), (∀ e ∈ l, P e.2) →
      ∀ e ∈ updateEntry k f l, P e.2
  | [], _, e, he => absurd he (by simp [updateEntry])
  | a :: rest, hl, e, he => by
    unfold updateEntry at he
    by_cases ha : a.1 = k
    · rw [if_pos ha] at he
      rcases List.mem_cons.mp he with h1 | h1
      · rw [h1]
        exact hf _ (hl a (List.mem_cons_self a rest))
      · exact hl e (List.mem_cons_of_mem a h1)
    · rw [if_neg ha] at he
      rcases List.mem_cons.mp he with h1 | h1
      · rw [h1]
        exact hl a (List.mem_cons_self a rest)
      · exact updateEntry_pred P k f hf rest
          (fun x hx => hl x (List.mem_cons_of_mem a hx)) e h1

/-! ## What `buildGroups` accumulates per key -/

theorem findEntry_insertRow (acc : List (String × PGroup))
    (r : PropResultRow) (k : String) :
    findEntry k (insertRow acc r) =
      if rowKey r = k then
        some (updateGroup r ((findEntry k acc).getD (emptyGroup r)))
      else findEntry k acc := by
  by_cases hk : rowKey r = k
  · subst hk
    rw [if_pos rfl]
    cases hf : findEntry (rowKey r) acc with
    | none =>
      unfold insertRow
      simp only [hf]
      rw [findEntry_append_of_none _ _ _ hf]
      simp [findEntry]
    | some g =>
      unfold insertRow
      simp only [hf]
      rw [findEntry_updateEntry_self]
      rw [hf]
      rfl
  · rw [if_neg hk]
    cases hf : findEntry (rowKey r) acc with
    | none =>
      unfold insertRow
      simp only [hf]
      cases hfk : findEntry k acc with
      | none =>
        rw [findEntry_append_of_none _ _ _ hfk]
        simp [findEntry, hk]
      | some v => rw [findEntry_append_of_some _ _ _ _ hfk]
    | some g =>
      unfold insertRow
      simp only [hf]
      exact findEntry_updateEntry_ne k (rowKey r) _ hk acc

theorem findEntry_foldl_insertRow (k : String) :
    ∀ (rows : List PropResultRow) (acc : List (String × PGroup)),
      findEntry k (rows.foldl insertRow acc) =
        foldGroupOpt (findEntry k acc)
          (rows.filter (fun r => decide (rowKey r = k)))
  | [], acc => rfl
  | r :: rows, acc => by
    rw [List.foldl_cons]
    rw [findEntry_foldl_insertRow k rows (insertRow acc r)]
    rw [findEntry_insertRow]
    by_cases hk : rowKey r = k
    · rw [if_pos hk]
      rw [List.filter_cons_of_pos (by simpa using hk)]
      rfl
    · rw [if_neg hk]
      rw [List.filter_cons_of_neg (by simpa using hk)]

theorem foldGroupOpt_fields :
    ∀ (rs : List PropResultRow) (g : PGroup),
      ∃ g2 : PGroup, foldGroupOpt (some g) rs = some g2 ∧
        g2.player = g.player ∧ g2.market = g.market ∧
        g2.pending = g.pending +
          rs.countP (fun r => decide (r.leg_result = none)) ∧
        g2.graded = g.graded +
          rs.countP (fun r => decide (r.leg_result ≠ none)) ∧
        g2.hits = g.hits +
          rs.countP (fun r => decide (r.leg_result = some LegResult.HIT)) ∧
        g2.scores = g.scores ++ rs.map (fun r => r.value_score.getD 0)
  | [], g => ⟨g, rfl, rfl, rfl, by simp, by simp, by simp, by simp⟩
  | r :: rs, g => by
    obtain ⟨g2, h1, hpl, hmk, hpend, hgr, hh, hs⟩ :=
      foldGroupOpt_fields rs (updateGroup r g)
    refine ⟨g2, h1, ?_, ?_, ?_, ?_, ?_, ?_⟩
    · rw [hpl]
      cases hr : r.leg_result <;> simp [updateGroup, hr]
    · rw [hmk]
      cases hr : r.leg_result <;> simp [updateGroup, hr]
    · rw [hpend]
      cases hr : r.leg_result <;>
        simp [updateGroup, hr, List.countP_cons] <;> omega
    · rw [hgr]
      cases hr : r.leg_result <;>
        simp [updateGroup, hr, List.countP_cons] <;> omega
    · rw [hh]
      cases hr : r.leg_result with
      | none => simp [updateGroup, hr, List.countP_cons]
      | some res =>
        cases res <;>
          simp [updateGroup, hr, List.countP_cons] <;> omega
    · rw [hs]
      cases hr : r.leg_result <;>
        simp [updateGroup, hr, List.append_assoc]

theorem buildGroups_fields (rows : List PropResultRow) (k : String)
    (g : PGroup) (h : findEntry k (buildGroups rows) = some g) :
    g.pending = (rows.filter (fun r => decide (rowKey r = k))).countP
        (fun r => decide (r.leg_result = none)) ∧
    g.graded = (rows.filter (fun r => decide (rowKey r = k))).countP
        (fun r => decide (r.leg_result ≠ none)) ∧
    g.hits = (rows.filter (fun r => decide (rowKey r = k))).countP
        (fun r => decide (r.leg_result = some LegResult.HIT)) ∧
    g.scores = (rows.filter (fun r => decide (rowKey r = k))).map
        (fun r => r.value_score.getD 0) := by
  rw [show buildGroups rows = rows.foldl insertRow [] from rfl,
    findEntry_foldl_insertRow] at h
  have hnone : @findEntry PGroup k [] = none := rfl
  rw [hnone] at h
  cases hrsf : rows.filter (fun r => decide (rowKey r = k)) with
  | nil =>
    rw [hrsf] at h
    exact absurd h (by simp [foldGroupOpt])
  | cons r0 rest =>
    rw [hrsf] at h
    have hstep : foldGroupOpt (none : Option PGroup) (r0 :: rest) =
        foldGroupOpt (some (updateGroup r0 (emptyGroup r0))) rest := rfl
    rw [hstep] at h
    obtain ⟨g2, h1, hpl, hmk, hpend, hgr, hh, hs⟩ :=
      foldGroupOpt_fields rest (updateGroup r0 (emptyGroup r0))
    rw [h1] at h
    have hg : g2 = g := by injection h
    subst hg
    refine ⟨?_, ?_, ?_, ?_⟩
    · rw [hpend]
      cases hr0 : r0.leg_result <;>
        simp [updateGroup, emptyGroup, hr0, List.countP_cons] <;> omega
    · rw [hgr]
      cases hr0 : r0.leg_result <;>
        simp [updateGroup, emptyGroup, hr0, List.countP_cons] <;> omega
    · rw [hh]
      cases hr0 : r0.leg_result with
      | none => simp [updateGroup, emptyGroup, hr0, List.countP_cons]
      | some res =>
        cases res <;>
          simp [updateGroup, emptyGroup, hr0, List.countP_cons] <;> omega
    · rw [hs]
      cases hr0 : r0.leg_result <;>
        simp [updateGroup, emptyGroup, hr0]

/-! ## C7 — pending rows in the player rollup -/

/-- C7: in the per-(player, market) rollup, every record with a null result
is counted in its group's pending counter, its score (with null scores as 0)
still enters the group's score list used for the mean, and it is excluded
from both the hits count and the hit-rate denominator: `total` counts graded
records only, and `hit_pct` divides hits by that graded count. -/
theorem c7_pending_rollup (rows : List PropResultRow) (k : String)
    (g : PGroup) (h : findEntry k (buildGroups rows) = some g) :
    g.pending = (rows.filter (fun r => decide (rowKey r = k))).countP
        (fun r => decide (r.leg_result = none)) ∧
    g.scores = (rows.filter (fun r => decide (rowKey r = k))).map
        (fun r => r.value_score.getD 0) ∧
    g.hits = (rows.filter (fun r => decide (rowKey r = k))).countP
        (fun r => decide (r.leg_result = some LegResult.HIT)) ∧
    (statOfGroup g).total =
      (rows.filter (fun r => decide (rowKey r = k))).countP
        (fun r => decide (r.leg_result ≠ none)) ∧
    (statOfGroup g).hits = g.hits ∧
    (statOfGroup g).pending = g.pending ∧
    (statOfGroup g).avg_score =
      jsRound (g.scores.sum / (g.scores.length : ℚ)) ∧
    (statOfGroup g).hit_pct =
      (if (statOfGroup g).total ≠ 0 then
        jsRound
          (((statOfGroup g).hits : ℚ) / ((statOfGroup g).total : ℚ) * 100)
      else 0) := by
  obtain ⟨hpend, hgr, hh, hs⟩ := buildGroups_fields rows k g h
  exact ⟨hpend, hs, hh, hgr, rfl, rfl, rfl, rfl⟩

/-- Witness for C7 over `rowsW` (one graded hit plus one pending row). -/
theorem c7_pending_rollup_witness :
    gW.pending = (rowsW.filter (fun r => decide (rowKey r = "A||P"))).countP
        (fun r => decide (r.leg_result = none)) ∧
    gW.scores = (rowsW.filter (fun r => decide (rowKey r = "A||P"))).map
        (fun r => r.value_score.getD 0) ∧
    gW.hits = (rowsW.filter (fun r => decide (rowKey r = "A||P"))).countP
        (fun r => decide (r.leg_result = some LegResult.HIT)) ∧
    (statOfGroup gW).total =
      (rowsW.filter (fun r => decide (rowKey r = "A||P"))).countP
        (fun r => decide (r.leg_result ≠ none)) ∧
    (statOfGroup gW).hits = gW.hits ∧
    (statOfGroup gW).pending = gW.pending ∧
    (statOfGroup gW).avg_score =
      jsRound (gW.scores.sum / (gW.scores.length : ℚ)) ∧
    (statOfGroup gW).hit_pct =
      (if (statOfGroup gW).total ≠ 0 then
        jsRound
          (((statOfGroup gW).hits : ℚ) / ((statOfGroup gW).total : ℚ) * 100)
      else 0) :=
  c7_pending_rollup rowsW "A||P" gW rfl

/-! ## C10 — null scores averaged as zero -/

/-- C10: in the per-(player, market) rollup, every row of the group
contributes to the mean score even when its value score is missing: a null
score enters as 0, so `avg_score` is the rounded mean over all rows of the
group (graded and pending alike), with nulls as zero. -/
theorem c10_null_score_mean (rows : List PropResultRow) (k : String)
    (g : PGroup) (h : findEntry k (buildGroups rows) = some g) :
    (statOfGroup g).avg_score =
      jsRound
        ((((rows.filter (fun r => decide (rowKey r = k))).map
            (fun r => r.value_score.getD 0)).sum) /
          (((rows.filter (fun r => decide (rowKey r = k))).length : ℚ))) := by
  obtain ⟨hpend, hgr, hh, hs⟩ := buildGroups_fields rows k g h
  show jsRound (g.scores.sum / (g.scores.length : ℚ)) = _
  rw [hs, List.length_map]

/-- Witness for C10 over `rowsW` (the pending row has a null score). -/
theorem c10_null_score_mean_witness :
    (statOfGroup gW).avg_score =
      jsRound
        ((((rowsW.filter (fun r => decide (rowKey r = "A||P"))).map
            (fun r => r.value_score.getD 0)).sum) /
          (((rowsW.filter (fun r => decide (rowKey r = "A||P"))).length :
            ℚ))) :=
  c10_null_score_mean rowsW "A||P" gW rfl

/-! ## C8 — rate bounds -/

theorem jsRound_bounds (q : ℚ) (h0 : 0 ≤ q) (h1 : q ≤ 100) :
    0 ≤ jsRound q ∧ jsRound q ≤ 100 := by
  unfold jsRound
  constructor
  · exact Int.le_floor.mpr (by push_cast; linarith)
  · have h2 : ⌊q + 1 / 2⌋ < 101 := Int.floor_lt.mpr (by push_cast; linarith)
    omega

theorem pct_bounds (hits total : Nat) (hle : hits ≤ total) :
    0 ≤ pct hits total ∧ pct hits total ≤ 100 := by
  unfold pct
  by_cases ht : total = 0
  · rw [if_neg (by simp [ht])]
    exact ⟨le_refl 0, by norm_num⟩
  · rw [if_pos ht]
    have htq : (0 : ℚ) < total := by
      exact_mod_cast Nat.pos_of_ne_zero ht
    have hleq : (hits : ℚ) ≤ total := by exact_mod_cast hle
    apply jsRound_bounds
    · positivity
    · calc (hits : ℚ) / total * 100 ≤ 1 * 100 := by
            apply mul_le_mul_of_nonneg_right _ (by norm_num)
            exact div_le_one_of_le₀ hleq (le_of_lt htq)
        _ = 100 := by norm_num

theorem insertMRow_hits_le (acc : List (String × MGroup))
    (r : PropResultRow) (hacc : ∀ e ∈ acc, e.2.hits ≤ e.2.total) :
    ∀ e ∈ insertMRow acc r, e.2.hits ≤ e.2.total := by
  intro e he
  unfold insertMRow at he
  cases hr : r.leg_result with
  | none =>
    simp only [hr] at he
    exact hacc e he
  | some res =>
    simp only [hr] at he
    cases hf : findEntry r.market_label acc with
    | some g =>
      simp only [hf] at he
      refine updateEntry_pred (fun b => b.hits ≤ b.total) _ _
        (fun b hb => ?_) acc hacc e he
      unfold updateM
      dsimp only
      cases res <;> simp <;> omega
    | none =>
      simp only [hf] at he
      rcases List.mem_append.mp he with h1 | h1
      · exact hacc e h1
      · have h2 : e = (r.market_label, updateM res { total := 0, hits := 0 }) := by
          simpa using h1
        subst h2
        cases res <;> simp [updateM]

theorem buildMarketGroups_hits_le (rows : List PropResultRow) :
    ∀ e ∈ buildMarketGroups rows, e.2.hits ≤ e.2.total := by
  have main : ∀ (rs : List PropResultRow) (acc : List (String × MGroup)),
      (∀ e ∈ acc, e.2.hits ≤ e.2.total) →
      ∀ e ∈ rs.foldl insertMRow acc, e.2.hits ≤ e.2.total := by
    intro rs
    induction rs with
    | nil => intro acc hacc; exact hacc
    | cons r rs ih =>
      intro acc hacc
      rw [List.foldl_cons]
      exact ih _ (insertMRow_hits_le acc r hacc)
  exact main rows [] (by simp)

/-- C8: every market rollup group satisfies `hits ≤ total`; its rate equals
the shared `pct` computation, lies within `[0, 100]`, and is reported as 0
when the group's total is 0 — no division by zero ever occurs because the
zero-total case is branched away before dividing. -/
theorem c8_rate_bounds (rows : List PropResultRow) (s : MarketStat)
    (hs : s ∈ computeMarketStats rows) :
    s.hits ≤ s.total ∧ 0 ≤ s.pct ∧ s.pct ≤ 100 ∧
    (s.total = 0 → s.pct = 0) ∧ s.pct = pct s.hits s.total := by
  unfold computeMarketStats at hs
  have hs2 : s ∈ (buildMarketGroups rows).map (fun e => marketStatOf e.1 e.2) :=
    List.mem_mergeSort.mp hs
  obtain ⟨e, he, rfl⟩ := List.mem_map.mp hs2
  have hle : e.2.hits ≤ e.2.total := buildMarketGroups_hits_le rows e he
  have hpct : (marketStatOf e.1 e.2).pct = pct e.2.hits e.2.total := rfl
  refine ⟨hle, ?_, ?_, ?_, hpct⟩
  · rw [hpct]
    exact (pct_bounds _ _ hle).1
  · rw [hpct]
    exact (pct_bounds _ _ hle).2
  · intro h0
    have h0b : e.2.total = 0 := h0
    rw [hpct]
    unfold pct
    rw [if_neg (by simp [h0b])]

/-- Witness for C8 at a one-row, one-group input. -/
theorem c8_rate_bounds_witness :
    sW.hits ≤ sW.total ∧ 0 ≤ sW.pct ∧ sW.pct ≤ 100 ∧
    (sW.total = 0 → sW.pct = 0) ∧ sW.pct = pct sW.hits sW.total :=
  c8_rate_bounds rowsW8 sW
    (by
      unfold computeMarketStats
      refine List.mem_mergeSort.mpr ?_
      have hb : buildMarketGroups rowsW8 =
          [("Points", { total := 1, hits := 1 })] := rfl
      rw [hb]
      simp [sW])

end PickAParlay
